import Mathlib

/-!
Verification of the schema/index/policy definition-and-reconciliation surface of
the `Basic` repository (src/App.py).  The source file is a Streamlit admin
dashboard whose schema layer consists of three module-level dictionaries
(`TABLE_SCHEMAS`, `INDEX_SCHEMAS`, `RLS_POLICIES`), a stub SQL executor
(`execute_sql_statement`), a "Create All Tables & Indexes" button handler, and a
"Show Complete SQL" export handler.  The specification generalizes this surface
into a schema-migration planner (catalogs, live state, `plan`); the planner
itself does not occur in the source, so it is modelled from the specification
text where needed, while every piece of data (tables, columns, indexes,
policies, dictionary key order, the handler control flow) is embedded from
src/App.py.
-/

namespace App

/-- Semantic column types, the closed set from the data model (section 3 of the
spec): integer/text/boolean/decimal/timestamp/json/array.  SQL types of
src/App.py are mapped onto these (BIGSERIAL/BIGINT/INTEGER to integer,
VARCHAR/TEXT to text, DECIMAL to decimal, TIMESTAMPTZ/DATE to timestamp,
JSONB to json, TEXT[]/BIGINT[] to array). -/
inductive SemType where
  | integer
  | text
  | boolean
  | decimal
  | timestamp
  | json
  | array
  deriving DecidableEq

/-- A column declaration: name and semantic type. -/
structure ColumnDef where
  name : String
  semType : SemType
  deriving DecidableEq

/-- An entity (table) declaration: name plus its ordered columns. -/
structure EntityDef where
  name : String
  columns : List ColumnDef
  deriving DecidableEq

/-- Index kinds from the spec's data model.  `filtered` is the spec's
partial-index kind (renamed; it is the kind of an index carrying a filter
predicate but indexing a declared column directly), `plain` covers both plain
B-tree indexes and generalized-inverted (GIN) whole-column indexes,
`expression` is an index on a decoded path of a semi-structured column,
`array` is a GIN index on an array column, `composite` a multi-column index. -/
inductive IndexKind where
  | plain
  | filtered
  | expression
  | array
  | composite
  deriving DecidableEq

/-- An index declaration: unique name, owning entity, kind, target column(s),
the decoded paths its expression targets (empty unless kind is `expression`),
and the optional key/column tested by its filter predicate. -/
structure IndexDef where
  name : String
  entity : String
  kind : IndexKind
  columns : List String
  decodedPaths : List String
  filterKey : Option String
  deriving DecidableEq

/-- Access-policy operations (section 3 of the spec). -/
inductive Op where
  | read
  | insert
  | update
  | delete
  | all
  deriving DecidableEq

/-- An access policy: owning entity and operation. -/
structure PolicyDef where
  entity : String
  operation : Op
  deriving DecidableEq

/-- The three catalogs (entities, indexes, policies), declaration-ordered. -/
structure Catalog where
  entities : List EntityDef
  indexes : List IndexDef
  policies : List PolicyDef
  deriving DecidableEq

/-- Declared entity names in declaration order. -/
def Catalog.entityNames (C : Catalog) : List String :=
  C.entities.map (fun e => e.name)

/-- Modelled from the spec: the live-state snapshot returned by the backend's
`introspect` call (section 6) — the sets of existing entity names, index names
and (entity, operation) policies.  The introspection call itself is not in
src/App.py (the source only has `check_table_exists` / `get_table_info`
heuristics). -/
structure LiveState where
  entities : List String
  indexes : List String
  policies : List (String × Op)
  deriving DecidableEq

/-- Modelled from the spec: the action kinds of a `ReconciliationPlan`
(section 3).  Every action is create-if-missing. -/
inductive Action where
  | create_entity (name : String)
  | create_index (name : String) (entity : String)
  | enable_policy_enforcement (entity : String)
  | create_policy (entity : String) (operation : Op)
  deriving DecidableEq

/- ------------------------------------------------------------------
   Embedding of the source data: TABLE_SCHEMAS (src/App.py lines 36-153)
   as entity definitions, columns transcribed from each CREATE TABLE.
   ------------------------------------------------------------------ -/

/-- src/App.py CREATE TABLE users (lines 39-47). -/
def usersEntity : EntityDef :=
  { name := "users",
    columns :=
      [⟨"id", .integer⟩, ⟨"email", .text⟩, ⟨"full_name", .text⟩,
       ⟨"role", .text⟩, ⟨"created_at", .timestamp⟩, ⟨"updated_at", .timestamp⟩] }

/-- src/App.py CREATE TABLE api_usage (lines 49-60). -/
def apiUsageEntity : EntityDef :=
  { name := "api_usage",
    columns :=
      [⟨"id", .integer⟩, ⟨"user_id", .integer⟩, ⟨"query", .text⟩,
       ⟨"query_type", .text⟩, ⟨"created_at", .timestamp⟩, ⟨"metadata", .json⟩,
       ⟨"response_time_ms", .integer⟩, ⟨"success", .boolean⟩,
       ⟨"error_message", .text⟩] }

/-- src/App.py CREATE TABLE properties (lines 62-74). -/
def propertiesEntity : EntityDef :=
  { name := "properties",
    columns :=
      [⟨"id", .integer⟩, ⟨"user_id", .integer⟩, ⟨"property_hash", .text⟩,
       ⟨"data", .json⟩, ⟨"search_params", .json⟩, ⟨"created_at", .timestamp⟩,
       ⟨"updated_at", .timestamp⟩, ⟨"is_favorite", .boolean⟩, ⟨"notes", .text⟩,
       ⟨"tags", .array⟩] }

/-- src/App.py CREATE TABLE user_sessions (lines 76-86). -/
def userSessionsEntity : EntityDef :=
  { name := "user_sessions",
    columns :=
      [⟨"id", .integer⟩, ⟨"user_id", .integer⟩, ⟨"user_data", .json⟩,
       ⟨"last_login", .timestamp⟩, ⟨"session_count", .integer⟩,
       ⟨"preferences", .json⟩, ⟨"created_at", .timestamp⟩,
       ⟨"updated_at", .timestamp⟩] }

/-- src/App.py CREATE TABLE market_alerts (lines 88-102). -/
def marketAlertsEntity : EntityDef :=
  { name := "market_alerts",
    columns :=
      [⟨"id", .integer⟩, ⟨"user_id", .integer⟩, ⟨"alert_name", .text⟩,
       ⟨"alert_type", .text⟩, ⟨"location", .text⟩, ⟨"criteria", .json⟩,
       ⟨"threshold", .decimal⟩, ⟨"notification_method", .text⟩,
       ⟨"is_active", .boolean⟩, ⟨"last_triggered", .timestamp⟩,
       ⟨"created_at", .timestamp⟩, ⟨"updated_at", .timestamp⟩] }

/-- src/App.py CREATE TABLE property_comparisons (lines 104-113). -/
def propertyComparisonsEntity : EntityDef :=
  { name := "property_comparisons",
    columns :=
      [⟨"id", .integer⟩, ⟨"user_id", .integer⟩, ⟨"comparison_name", .text⟩,
       ⟨"property_ids", .array⟩, ⟨"comparison_data", .json⟩,
       ⟨"created_at", .timestamp⟩, ⟨"updated_at", .timestamp⟩] }

/-- src/App.py CREATE TABLE user_preferences (lines 115-124). -/
def userPreferencesEntity : EntityDef :=
  { name := "user_preferences",
    columns :=
      [⟨"id", .integer⟩, ⟨"user_id", .integer⟩, ⟨"notifications", .json⟩,
       ⟨"display_settings", .json⟩, ⟨"api_settings", .json⟩,
       ⟨"created_at", .timestamp⟩, ⟨"updated_at", .timestamp⟩] }

/-- src/App.py CREATE TABLE portfolio_analytics (lines 126-139). -/
def portfolioAnalyticsEntity : EntityDef :=
  { name := "portfolio_analytics",
    columns :=
      [⟨"id", .integer⟩, ⟨"user_id", .integer⟩, ⟨"calculation_date", .timestamp⟩,
       ⟨"total_properties", .integer⟩, ⟨"total_value", .decimal⟩,
       ⟨"total_monthly_rent", .decimal⟩, ⟨"average_cap_rate", .decimal⟩,
       ⟨"total_cash_flow", .decimal⟩, ⟨"metrics", .json⟩,
       ⟨"created_at", .timestamp⟩] }

/-- src/App.py CREATE TABLE saved_searches (lines 141-152). -/
def savedSearchesEntity : EntityDef :=
  { name := "saved_searches",
    columns :=
      [⟨"id", .integer⟩, ⟨"user_id", .integer⟩, ⟨"search_name", .text⟩,
       ⟨"search_criteria", .json⟩, ⟨"auto_notify", .boolean⟩,
       ⟨"last_run", .timestamp⟩, ⟨"results_count", .integer⟩,
       ⟨"created_at", .timestamp⟩, ⟨"updated_at", .timestamp⟩] }

/-- The declared entities of src/App.py, in TABLE_SCHEMAS dictionary order
(the "extensions" entry is a CREATE EXTENSION statement, not a table, and is
skipped by the source's own table loop). -/
def realEntities : List EntityDef :=
  [usersEntity, apiUsageEntity, propertiesEntity, userSessionsEntity,
   marketAlertsEntity, propertyComparisonsEntity, userPreferencesEntity,
   portfolioAnalyticsEntity, savedSearchesEntity]

/-- The keys of TABLE_SCHEMAS (src/App.py lines 36-153), in dictionary
(insertion) order. -/
def TABLE_SCHEMAS_keys : List String :=
  ["extensions", "users", "api_usage", "properties", "user_sessions",
   "market_alerts", "property_comparisons", "user_preferences",
   "portfolio_analytics", "saved_searches"]

/- ------------------------------------------------------------------
   INDEX_SCHEMAS (src/App.py lines 156-184): 20 CREATE INDEX statements,
   transcribed as structured index definitions.
   ------------------------------------------------------------------ -/

/-- The 20 indexes of INDEX_SCHEMAS in dictionary order: 10 plain B-tree
indexes (one of which, idx_market_alerts_active, carries a WHERE filter on
is_active), 5 whole-column GIN indexes on JSONB columns, 2 GIN indexes on
array columns, and 3 expression indexes each decoding exactly one path of the
JSONB column `data` (price, bedrooms, property_type), each filtered on the
existence of that key. -/
def realIndexes : List IndexDef :=
  [⟨"idx_properties_user_id", "properties", .plain, ["user_id"], [], none⟩,
   ⟨"idx_properties_created_at", "properties", .plain, ["created_at"], [], none⟩,
   ⟨"idx_api_usage_user_id", "api_usage", .plain, ["user_id"], [], none⟩,
   ⟨"idx_api_usage_created_at", "api_usage", .plain, ["created_at"], [], none⟩,
   ⟨"idx_api_usage_query_type", "api_usage", .plain, ["query_type"], [], none⟩,
   ⟨"idx_market_alerts_user_id", "market_alerts", .plain, ["user_id"], [], none⟩,
   ⟨"idx_market_alerts_active", "market_alerts", .filtered, ["is_active"], [],
     some "is_active"⟩,
   ⟨"idx_user_sessions_last_login", "user_sessions", .plain, ["last_login"], [],
     none⟩,
   ⟨"idx_portfolio_analytics_date", "portfolio_analytics", .plain,
     ["calculation_date"], [], none⟩,
   ⟨"idx_saved_searches_user_id", "saved_searches", .plain, ["user_id"], [],
     none⟩,
   ⟨"idx_properties_data_gin", "properties", .plain, ["data"], [], none⟩,
   ⟨"idx_properties_search_params_gin", "properties", .plain, ["search_params"],
     [], none⟩,
   ⟨"idx_market_alerts_criteria_gin", "market_alerts", .plain, ["criteria"], [],
     none⟩,
   ⟨"idx_user_preferences_notifications_gin", "user_preferences", .plain,
     ["notifications"], [], none⟩,
   ⟨"idx_saved_searches_criteria_gin", "saved_searches", .plain,
     ["search_criteria"], [], none⟩,
   ⟨"idx_properties_tags_gin", "properties", .array, ["tags"], [], none⟩,
   ⟨"idx_property_comparisons_ids_gin", "property_comparisons", .array,
     ["property_ids"], [], none⟩,
   ⟨"idx_properties_price", "properties", .expression, ["data"], ["price"],
     some "price"⟩,
   ⟨"idx_properties_bedrooms", "properties", .expression, ["data"], ["bedrooms"],
     some "bedrooms"⟩,
   ⟨"idx_properties_property_type", "properties", .expression, ["data"],
     ["property_type"], some "property_type"⟩]

/-- The keys of INDEX_SCHEMAS (src/App.py lines 156-184), in dictionary
(insertion) order. -/
def INDEX_SCHEMAS_keys : List String :=
  realIndexes.map (fun i => i.name)

/- ------------------------------------------------------------------
   RLS_POLICIES (src/App.py lines 187-230): per-table RLS blocks.
   ------------------------------------------------------------------ -/

/-- The access policies of RLS_POLICIES, one per CREATE POLICY statement, in
source order: users gets SELECT and UPDATE policies, properties gets
SELECT/INSERT/UPDATE/DELETE policies, api_usage gets a SELECT policy.  SQL
operations map to the spec's operation set (SELECT to read). -/
def realPolicies : List PolicyDef :=
  [⟨"users", .read⟩, ⟨"users", .update⟩,
   ⟨"properties", .read⟩, ⟨"properties", .insert⟩, ⟨"properties", .update⟩,
   ⟨"properties", .delete⟩,
   ⟨"api_usage", .read⟩]

/-- The keys of RLS_POLICIES (src/App.py lines 187-230), in dictionary order. -/
def RLS_POLICIES_keys : List String :=
  ["users", "properties", "api_usage"]

/-- The full catalog declared by src/App.py. -/
def realCatalog : Catalog :=
  { entities := realEntities, indexes := realIndexes, policies := realPolicies }

/- ------------------------------------------------------------------
   The stub SQL executor and the "Create All Tables & Indexes" handler
   (src/App.py lines 251-258 and 279-350).
   ------------------------------------------------------------------ -/

/-- The state of the external backend, abstracted as the list of SQL texts that
have actually been executed against it.  It is threaded through the embedded
handler so that the frame property "the flow never executes SQL" is
expressible; a real execution step would append to `executedSql`. -/
structure Backend where
  executedSql : List String
  deriving DecidableEq

/-- The result dictionary returned by execute_sql_statement. -/
structure ExecResult where
  success : Bool
  message : String
  deriving DecidableEq

/-- src/App.py lines 251-258: `execute_sql_statement(sql_statement,
description)`.  The body is a placeholder: it performs no database call and
unconditionally returns success with the message
`description + " ready to execute"`; its except-branch is dead code.  The
backend state is threaded unchanged, reflecting that the source body never
touches the database client. -/
def execute_sql_statement (b : Backend) (sql_statement : String)
    (description : String) : ExecResult × Backend :=
  ({ success := true, message := description ++ " ready to execute" }, b)

/-- Runs a list of (description, statement) pairs through
execute_sql_statement, collecting (description, success) outcomes — the shape
of the per-statement loops in the Create All Tables & Indexes handler. -/
def runStatements (b : Backend) (stmts : List (String × String)) :
    List (String × Bool) × Backend :=
  stmts.foldl
    (fun acc stmt =>
      let r := execute_sql_statement acc.2 stmt.2 stmt.1
      (acc.1 ++ [(stmt.1, r.1.success)], r.2))
    ([], b)

/-- src/App.py lines 279-350: the Create All Tables & Indexes button handler.
It feeds the extension statement, then every table of TABLE_SCHEMAS except the
"extensions" key, then every index of INDEX_SCHEMAS, and (when the Row Level
Security checkbox is set) every RLS block, through execute_sql_statement.  The
SQL text argument is abstracted by its dictionary key, which
execute_sql_statement ignores. -/
def create_all_tables_and_indexes (b : Backend) (enableRLS : Bool) :
    List (String × Bool) × Backend :=
  runStatements b
    ([("Extensions", "extensions")] ++
     (TABLE_SCHEMAS_keys.filter (fun t => !decide (t = "extensions"))).map
       (fun t => ("Table " ++ t, t)) ++
     INDEX_SCHEMAS_keys.map (fun i => ("Index " ++ i, i)) ++
     (if enableRLS then RLS_POLICIES_keys.map (fun t => ("RLS for " ++ t, t))
      else []))

/- ------------------------------------------------------------------
   The "Show Complete SQL" export handler (src/App.py lines 355-405):
   three key-name filters over INDEX_SCHEMAS.
   ------------------------------------------------------------------ -/

/-- Substring test on character lists: does `pat` occur inside the list? -/
def isPrefixChars : List Char → List Char → Bool
  | [], _ => true
  | _ :: _, [] => false
  | a :: as, b :: bs => decide (a = b) && isPrefixChars as bs

/-- Substring occurrence test on character lists. -/
def containsChars (pat : List Char) : List Char → Bool
  | [] => isPrefixChars pat []
  | b :: bs => isPrefixChars pat (b :: bs) || containsChars pat bs

/-- `strContains s pat` embeds Python's `pat in s` substring test. -/
def strContains (s pat : String) : Bool :=
  containsChars pat.data s.data

/-- src/App.py line 377: `basic_indexes = [k for k in INDEX_SCHEMAS.keys() if
not any(x in k for x in ['gin', 'price', 'bedrooms', 'property_type'])]`. -/
def basic_indexes : List String :=
  INDEX_SCHEMAS_keys.filter (fun k =>
    !(strContains k "gin" || strContains k "price" || strContains k "bedrooms" ||
      strContains k "property_type"))

/-- src/App.py line 382: `gin_indexes = [k for k in INDEX_SCHEMAS.keys() if
'gin' in k]`. -/
def gin_indexes : List String :=
  INDEX_SCHEMAS_keys.filter (fun k => strContains k "gin")

/-- src/App.py line 387: `expression_indexes = [k for k in INDEX_SCHEMAS.keys()
if any(x in k for x in ['price', 'bedrooms', 'property_type'])]`. -/
def expression_indexes : List String :=
  INDEX_SCHEMAS_keys.filter (fun k =>
    strContains k "price" || strContains k "bedrooms" ||
    strContains k "property_type")

/-- The index keys in the order the Show Complete SQL export emits their
statements (basic section, then GIN section, then expression section). -/
def exportedIndexKeys : List String :=
  basic_indexes ++ gin_indexes ++ expression_indexes

/- ------------------------------------------------------------------
   The Reconciler, modelled from the spec (section 4.4): src/App.py has
   no plan function (its creation handler feeds every statement to the
   stub executor unconditionally), so the planner is taken from the
   spec's algorithm over the embedded catalogs.
   ------------------------------------------------------------------ -/

/-- Modelled from the spec: `indexesFor(entityName)` of the Index Catalog
(section 4.2), declaration order preserved. -/
def indexesFor (C : Catalog) (e : String) : List IndexDef :=
  C.indexes.filter (fun i => decide (i.entity = e))

/-- Modelled from the spec: `policiesFor(entityName)` of the Access Policy
Catalog (section 4.3), declaration order preserved. -/
def policiesFor (C : Catalog) (e : String) : List PolicyDef :=
  C.policies.filter (fun p => decide (p.entity = e))

/-- Modelled from the spec: the entities "now known to exist (declared ∪
live)" of step 2 of the plan algorithm — declared entities in declaration
order followed by the live-only ones. -/
def knownEntities (C : Catalog) (L : LiveState) : List String :=
  C.entityNames ++ L.entities.filter (fun e => !decide (e ∈ C.entityNames))

/-- Modelled from the spec: step 1 of `plan` (section 4.4) — for each declared
entity in declared order, a create_entity action when it is absent from
liveState.entities. -/
def planEntities (C : Catalog) (L : LiveState) : List Action :=
  (C.entityNames.filter (fun e => !decide (e ∈ L.entities))).map
    Action.create_entity

/-- Modelled from the spec: step 2 of `plan` — for each entity now known to
exist, for each of its declared indexes, a create_index action when the index
is absent from liveState.indexes. -/
def planIndexes (C : Catalog) (L : LiveState) : List Action :=
  (knownEntities C L).flatMap fun e =>
    ((indexesFor C e).filter (fun i => !decide (i.name ∈ L.indexes))).map
      fun i => Action.create_index i.name i.entity

/-- Modelled from the spec: step 3 of `plan` — for each entity with at least
one access policy, an enable_policy_enforcement action followed by one
create_policy action per policy absent from liveState.policies. -/
def planPolicies (C : Catalog) (L : LiveState) : List Action :=
  C.entityNames.flatMap fun e =>
    if (policiesFor C e).isEmpty then []
    else
      Action.enable_policy_enforcement e ::
        ((policiesFor C e).filter
            (fun p => !decide ((p.entity, p.operation) ∈ L.policies))).map
          fun p => Action.create_policy p.entity p.operation

/-- Modelled from the spec: `plan(liveState) -> ReconciliationPlan` (section
4.4), a pure function of the catalogs and the live state; step 3 runs only
when the caller requested policy enforcement. -/
def plan (C : Catalog) (L : LiveState) (enforce : Bool) : List Action :=
  planEntities C L ++ planIndexes C L ++
    (if enforce then planPolicies C L else [])

/-- Modelled from the spec: the effect of the external executor successfully
applying one action to the live state (section 6) — each create action makes
its object exist; enable_policy_enforcement has no introspectable footprint,
since LiveState records only entities, indexes and (entity, operation)
policies. -/
def applyAction (L : LiveState) : Action → LiveState
  | .create_entity n => { L with entities := L.entities ++ [n] }
  | .create_index n _ => { L with indexes := L.indexes ++ [n] }
  | .enable_policy_enforcement _ => L
  | .create_policy e op => { L with policies := L.policies ++ [(e, op)] }

/-- Applying a sequence of actions in order. -/
def applyPlan (L : LiveState) (p : List Action) : LiveState :=
  p.foldl applyAction L

/-- Catalog validity (spec section 3): every index's owning entity references
a declared entity. -/
def ownersDeclared (C : Catalog) : Bool :=
  C.indexes.all fun i => decide (i.entity ∈ C.entityNames)

/-- The create_entity target of an action, if any. -/
def entTarget : Action → Option String
  | .create_entity n => some n
  | _ => none

/-- The create_index target of an action, if any. -/
def idxTarget : Action → Option String
  | .create_index n _ => some n
  | _ => none

/-- The create_policy target of an action, if any. -/
def polTarget : Action → Option (String × Op)
  | .create_policy e op => some (e, op)
  | _ => none

/-- Is the action an enable_policy_enforcement action? -/
def isEnable : Action → Bool
  | .enable_policy_enforcement _ => true
  | _ => false

/-- Category rank of an action: entity creation before index creation before
policy actions (spec ordering guarantee, section 4.4). -/
def rank : Action → Nat
  | .create_entity _ => 0
  | .create_index _ _ => 1
  | .enable_policy_enforcement _ => 2
  | .create_policy _ _ => 2

/- ------------------------------------------------------------------
   Load-time catalog validation, modelled from the spec (sections 4.2,
   4.3, 7); absent from src/App.py.
   ------------------------------------------------------------------ -/

/-- Modelled from the spec: the load-time error taxonomy (section 7) relevant
to the claims. -/
inductive LoadError where
  | InvalidIndexExpressionError
  | TypeMismatchError
  | PolicyConflictError
  deriving DecidableEq

/-- Is `column` declared on entity `entity`? -/
def columnDeclared (es : List EntityDef) (entity column : String) : Bool :=
  es.any fun e =>
    decide (e.name = entity) && e.columns.any fun c => decide (c.name = column)

/-- Does `column` of `entity` have semantic type `t`? -/
def columnHasType (es : List EntityDef) (entity column : String)
    (t : SemType) : Bool :=
  es.any fun e =>
    decide (e.name = entity) &&
      e.columns.any fun c => decide (c.name = column) && decide (c.semType = t)

/-- Modelled from the spec: the expression-index validation rule (section
4.2) — the target expression references only columns declared on the owning
entity, and exactly one decoded path. -/
def indexExpressionOk (es : List EntityDef) (i : IndexDef) : Bool :=
  i.columns.all (fun c => columnDeclared es i.entity c) &&
    decide (i.decodedPaths.length = 1)

/-- Modelled from the spec: the array-index validation rule (section 4.2) —
the owning column's semantic type must be array. -/
def arrayIndexOk (es : List EntityDef) (i : IndexDef) : Bool :=
  i.columns.all fun c => columnHasType es i.entity c .array

/-- Modelled from the spec: load-time index validation — any invalid
expression index fails with InvalidIndexExpressionError, then any mistyped
array index fails with TypeMismatchError. -/
def validateIndexes (es : List EntityDef) (idxs : List IndexDef) :
    Except LoadError Unit :=
  if idxs.any (fun i => decide (i.kind = .expression) && !indexExpressionOk es i)
  then .error .InvalidIndexExpressionError
  else if idxs.any (fun i => decide (i.kind = .array) && !arrayIndexOk es i)
  then .error .TypeMismatchError
  else .ok ()

/-- Does some entity declare both an all-operation policy and an
operation-specific policy? -/
def policyConflict (pols : List PolicyDef) : Bool :=
  pols.any fun p =>
    decide (p.operation = .all) &&
      pols.any fun q => decide (q.entity = p.entity) && !decide (q.operation = .all)

/-- Modelled from the spec: load-time policy validation (section 4.3) — an
all-operation policy and an operation-specific policy may not coexist on the
same entity. -/
def validatePolicies (pols : List PolicyDef) : Except LoadError Unit :=
  if policyConflict pols then .error .PolicyConflictError else .ok ()

/-- Modelled from the spec: catalog loading — all validations run eagerly at
load time and any failure blocks the catalog entirely (section 7). -/
def loadCatalog (C : Catalog) : Except LoadError Catalog :=
  match validateIndexes C.entities C.indexes with
  | .error e => .error e
  | .ok _ =>
    match validatePolicies C.policies with
    | .error e => .error e
    | .ok _ => .ok C

/-- Planning from a raw catalog: load (validating) and then plan; no plan is
produced from a catalog that fails validation. -/
def planFromLoad (C : Catalog) (L : LiveState) (enforce : Bool) :
    Except LoadError (List Action) :=
  match loadCatalog C with
  | .error e => .error e
  | .ok C' => .ok (plan C' L enforce)

/-- Modelled from the spec: backend introspection failures (section 5/7) —
a timeout or a backend error. -/
inductive IntrospectionFailure where
  | IntrospectionTimeoutError
  | BackendError
  deriving DecidableEq

/-- Modelled from the spec: reconciliation against a backend introspection
outcome (sections 5-7) — a failed introspection propagates as a typed error
and no plan is produced; a successful one yields the pure plan. -/
def reconcile (C : Catalog) (enforce : Bool) :
    Except IntrospectionFailure LiveState →
      Except IntrospectionFailure (List Action)
  | .error e => .error e
  | .ok L => .ok (plan C L enforce)

/- ------------------------------------------------------------------
   Auxiliary notions for the planner proofs.
   ------------------------------------------------------------------ -/

/-- Does the live state already contain the object an action would create?
Enable actions have no introspectable object, so they are never done. -/
def done (L : LiveState) : Action → Bool
  | .create_entity n => decide (n ∈ L.entities)
  | .create_index n _ => decide (n ∈ L.indexes)
  | .enable_policy_enforcement _ => false
  | .create_policy e op => decide ((e, op) ∈ L.policies)

/-- The identity of the live-state object an action concerns; entity, index
and policy names live in separate namespaces. -/
inductive ObjKey where
  | entK (n : String)
  | idxK (n : String)
  | polK (p : String × Op)
  | enfK (n : String)
  deriving DecidableEq

/-- The key of an action. -/
def actionKey : Action → ObjKey
  | .create_entity n => .entK n
  | .create_index n _ => .idxK n
  | .enable_policy_enforcement e => .enfK e
  | .create_policy e op => .polK (e, op)

/-- The full list of create items a validated catalog can ever emit (entity
items in declared order, then index items grouped by declared entity): for a
catalog whose index owners are declared, the entity/index part of a plan is
exactly this list filtered by absence from the live state. -/
def planItems (C : Catalog) : List Action :=
  C.entityNames.map Action.create_entity ++
    C.entityNames.flatMap fun e =>
      (indexesFor C e).map fun i => Action.create_index i.name i.entity

/-- The create_index target of an action when it is owned by entity `e`. -/
def idxTargetFor (e : String) : Action → Option String
  | .create_index n ent => if ent = e then some n else none
  | _ => none

/- ------------------------------------------------------------------
   Concrete sample inputs used by counterexamples and witnesses.
   ------------------------------------------------------------------ -/

/-- The empty live state (a fresh backend). -/
def emptyLive : LiveState := ⟨[], [], []⟩

/-- A one-entity catalog carrying a single read policy. -/
def onePolicyCatalog : Catalog :=
  { entities := [⟨"users", [⟨"id", .integer⟩]⟩],
    indexes := [],
    policies := [⟨"users", .read⟩] }

/-- A one-entity catalog carrying a read and an insert policy. -/
def twoPolicyCatalog : Catalog :=
  { entities := [⟨"users", [⟨"id", .integer⟩]⟩],
    indexes := [],
    policies := [⟨"users", .read⟩, ⟨"users", .insert⟩] }

/-- A live state that already contains the users entity. -/
def usersLive : LiveState := ⟨["users"], [], []⟩

/-- A live state that already contains the users table and one index. -/
def partialLive : LiveState :=
  ⟨["users"], ["idx_properties_user_id"], []⟩

/-- An invalid expression index: it decodes two paths at once. -/
def twoPathIndex : IndexDef :=
  ⟨"idx_properties_price_bedrooms", "properties", .expression, ["data"],
    ["price", "bedrooms"], none⟩

/-- Scenario D of the spec: the same entity declares an all-operation policy
and an operation-specific policy. -/
def scenarioDCatalog : Catalog :=
  { entities := [⟨"users", [⟨"id", .integer⟩]⟩],
    indexes := [],
    policies := [⟨"users", .all⟩, ⟨"users", .read⟩] }

/-- Two live states with the same three sets, enumerated in different orders. -/
def liveA : LiveState :=
  ⟨["users", "properties"], ["idx_properties_user_id", "idx_properties_data_gin"],
   [("users", .read)]⟩

/-- The same live state as liveA with the sets enumerated in reverse order. -/
def liveB : LiveState :=
  ⟨["properties", "users"], ["idx_properties_data_gin", "idx_properties_user_id"],
   [("users", .read)]⟩

/- ==================================================================
   Theorems
   ================================================================== -/

/- Membership and target characterizations of plan sections. -/

theorem mem_planEntities (C : Catalog) (L : LiveState) {e : String}
    (he : e ∈ C.entityNames) (hno : e ∉ L.entities) :
    Action.create_entity e ∈ planEntities C L := by
  rw [planEntities]
  exact List.mem_map_of_mem _ (List.mem_filter.mpr ⟨he, by simpa using hno⟩)

theorem mem_planIndexes (C : Catalog) (L : LiveState) {e : String}
    {i : IndexDef} (he : e ∈ knownEntities C L) (hi : i ∈ indexesFor C e)
    (hno : i.name ∉ L.indexes) :
    Action.create_index i.name i.entity ∈ planIndexes C L := by
  rw [planIndexes]
  exact List.mem_flatMap.mpr ⟨e, he,
    List.mem_map_of_mem _ (List.mem_filter.mpr ⟨hi, by simpa using hno⟩)⟩

theorem mem_planPolicies (C : Catalog) (L : LiveState) {e : String}
    {p : PolicyDef} (he : e ∈ C.entityNames) (hp : p ∈ policiesFor C e)
    (hno : (p.entity, p.operation) ∉ L.policies) :
    Action.create_policy p.entity p.operation ∈ planPolicies C L := by
  rw [planPolicies]
  refine List.mem_flatMap.mpr ⟨e, he, ?_⟩
  have hnonempty : (policiesFor C e).isEmpty = false := by
    rw [List.isEmpty_eq_false]
    exact List.ne_nil_of_mem hp
  rw [hnonempty, if_neg (by simp)]
  exact List.mem_cons.mpr (Or.inr
    (List.mem_map_of_mem _ (List.mem_filter.mpr ⟨hp, by simpa using hno⟩)))

theorem plan_filterMap_entTarget (C : Catalog) (L : LiveState) (enforce : Bool) :
    (plan C L enforce).filterMap entTarget =
      C.entityNames.filter fun e => !decide (e ∈ L.entities) := by
  rw [plan, List.filterMap_append, List.filterMap_append]
  have h1 : (planEntities C L).filterMap entTarget =
      C.entityNames.filter fun e => !decide (e ∈ L.entities) := by
    rw [planEntities, List.filterMap_map]
    rw [show (entTarget ∘ Action.create_entity) = some from rfl,
      List.filterMap_some]
  have h2 : (planIndexes C L).filterMap entTarget = [] := by
    rw [List.filterMap_eq_nil_iff]
    intro a ha
    rw [planIndexes] at ha
    obtain ⟨e, -, ha'⟩ := List.mem_flatMap.mp ha
    obtain ⟨i, -, rfl⟩ := List.mem_map.mp ha'
    rfl
  have h3 : ((if enforce then planPolicies C L else []) : List Action).filterMap
      entTarget = [] := by
    cases enforce
    · simp
    · simp only [if_true]
      rw [List.filterMap_eq_nil_iff]
      intro a ha
      rw [planPolicies] at ha
      obtain ⟨e, -, ha'⟩ := List.mem_flatMap.mp ha
      split at ha'
      · exact absurd ha' (List.not_mem_nil a)
      · rcases List.mem_cons.mp ha' with rfl | hmem
        · rfl
        · obtain ⟨p, -, rfl⟩ := List.mem_map.mp hmem
          rfl
  rw [h1, h2, h3, List.append_nil, List.append_nil]

theorem plan_entTargets_mem (C : Catalog) (L : LiveState) (enforce : Bool)
    {x : String} (hx : x ∈ (plan C L enforce).filterMap entTarget) :
    x ∈ C.entityNames := by
  rw [plan_filterMap_entTarget] at hx
  exact (List.mem_filter.mp hx).1

/- Helper lemmas about applying plans to the live state. -/

theorem applyPlan_cons (L : LiveState) (a : Action) (p : List Action) :
    applyPlan L (a :: p) = applyPlan (applyAction L a) p := rfl

theorem applyPlan_entities (p : List Action) : ∀ L : LiveState,
    (applyPlan L p).entities = L.entities ++ p.filterMap entTarget := by
  induction p with
  | nil => intro L; simp [applyPlan]
  | cons a q ih =>
      intro L
      rw [applyPlan_cons, ih]
      cases a <;> simp [applyAction, entTarget]

theorem applyPlan_indexes (p : List Action) : ∀ L : LiveState,
    (applyPlan L p).indexes = L.indexes ++ p.filterMap idxTarget := by
  induction p with
  | nil => intro L; simp [applyPlan]
  | cons a q ih =>
      intro L
      rw [applyPlan_cons, ih]
      cases a <;> simp [applyAction, idxTarget]

theorem applyPlan_policies (p : List Action) : ∀ L : LiveState,
    (applyPlan L p).policies = L.policies ++ p.filterMap polTarget := by
  induction p with
  | nil => intro L; simp [applyPlan]
  | cons a q ih =>
      intro L
      rw [applyPlan_cons, ih]
      cases a <;> simp [applyAction, polTarget]

theorem done_applyAction (L : LiveState) (b a : Action)
    (ha : isEnable a = false) :
    done (applyAction L b) a = (done L a || decide (actionKey a = actionKey b)) := by
  cases a with
  | enable_policy_enforcement e => simp [isEnable] at ha
  | create_entity n =>
      cases b <;>
        simp [done, applyAction, actionKey, List.mem_append,
          List.mem_singleton, Bool.decide_or]
  | create_index n ent =>
      cases b <;>
        simp [done, applyAction, actionKey, List.mem_append,
          List.mem_singleton, Bool.decide_or]
  | create_policy e op =>
      cases b <;>
        simp [done, applyAction, actionKey, List.mem_append,
          List.mem_singleton, Bool.decide_or, Prod.ext_iff]

theorem done_applyPlan (p : List Action) : ∀ (L : LiveState) (a : Action),
    isEnable a = false →
    done (applyPlan L p) a =
      (done L a || decide (actionKey a ∈ p.map actionKey)) := by
  induction p with
  | nil => intro L a _; simp [applyPlan]
  | cons b q ih =>
      intro L a ha
      rw [applyPlan_cons, ih _ a ha, done_applyAction L b a ha]
      simp [List.mem_cons, Bool.decide_or, Bool.or_assoc]

/- The generic pending-list lemma: filtering a fixed item list by "not yet
present, and not among the keys of the first n pending items" yields exactly
the pending list with its first n items dropped. -/

theorem filter_pending_take_drop {α β : Type} [DecidableEq β] (key : α → β)
    (p : α → Bool) :
    ∀ (xs : List α) (n : Nat), ((xs.filter p).map key).Nodup →
      xs.filter
          (fun a => p a && !decide (key a ∈ ((xs.filter p).take n).map key)) =
        (xs.filter p).drop n := by
  intro xs
  induction xs with
  | nil => intro n _; simp
  | cons x xs ih =>
      intro n hnd
      by_cases hx : p x = true
      · have hf : List.filter p (x :: xs) = x :: List.filter p xs :=
          List.filter_cons_of_pos hx
        rw [hf] at hnd ⊢
        match n with
        | 0 =>
            have hpred : (fun a =>
                p a && !decide (key a ∈ ((x :: List.filter p xs).take 0).map key))
                = fun a => p a := by
              funext a
              simp
            rw [hpred, List.drop_zero, hf]
        | Nat.succ m =>
            have hnd2 := hnd
            rw [List.map_cons, List.nodup_cons] at hnd2
            have hxk : key x ∉ (List.filter p xs).map key := hnd2.1
            have hnd' : ((List.filter p xs).map key).Nodup := hnd2.2
            rw [List.take_succ_cons, List.drop_succ_cons]
            have hxfalse : ¬ ((fun a =>
                p a && !decide (key a ∈
                  ((x :: (List.filter p xs).take m)).map key)) x = true) := by
              simp [List.map_cons, List.mem_cons]
            rw [List.filter_cons, if_neg hxfalse]
            have hcong : ∀ a ∈ xs,
                (p a && !decide (key a ∈
                    ((x :: (List.filter p xs).take m)).map key))
                  = (p a && !decide (key a ∈
                      (((List.filter p xs).take m)).map key)) := by
              intro a haxs
              by_cases hpa : p a = true
              · have hmem : key a ∈ (List.filter p xs).map key :=
                  List.mem_map_of_mem key (List.mem_filter.mpr ⟨haxs, hpa⟩)
                have hneq : key a ≠ key x := by
                  intro h
                  exact hxk (h ▸ hmem)
                simp [List.map_cons, List.mem_cons, hneq, hpa]
              · simp at hpa
                simp [hpa]
            rw [List.filter_congr hcong]
            have := ih m hnd'
            -- the inner take list in ih refers to (xs.filter p); identical here
            exact this
      · have hpx : p x = false := by simpa using hx
        have hf : List.filter p (x :: xs) = List.filter p xs :=
          List.filter_cons_of_neg hx
        rw [hf] at hnd ⊢
        rw [List.filter_cons, if_neg (by simp [hpx])]
        exact ih n hnd

/- Normalization of the entity/index part of a plan to a filtered item list. -/

theorem planEntities_eq_filter (C : Catalog) (L : LiveState) :
    planEntities C L =
      (C.entityNames.map Action.create_entity).filter (fun a => !done L a) := by
  rw [List.filter_map]
  rfl

theorem indexesFor_eq_nil (C : Catalog) (hv : ownersDeclared C = true)
    {e : String} (he : e ∉ C.entityNames) : indexesFor C e = [] := by
  rw [indexesFor, List.filter_eq_nil_iff]
  intro i hi
  have hmem : i.entity ∈ C.entityNames := by
    have := (List.all_eq_true.mp hv) i hi
    simpa using this
  simp only [decide_eq_true_eq]
  intro hEq
  exact he (hEq ▸ hmem)

theorem planIndexes_eq_filter (C : Catalog) (L : LiveState)
    (hv : ownersDeclared C = true) :
    planIndexes C L =
      List.filter (fun a => !done L a)
        (C.entityNames.flatMap fun e =>
          (indexesFor C e).map fun i => Action.create_index i.name i.entity) := by
  rw [List.filter_flatMap]
  rw [planIndexes, knownEntities, List.flatMap_append]
  have h2 : (L.entities.filter fun e => !decide (e ∈ C.entityNames)).flatMap
      (fun e =>
        ((indexesFor C e).filter fun i => !decide (i.name ∈ L.indexes)).map
          fun i => Action.create_index i.name i.entity) = [] := by
    rw [List.flatMap_eq_nil_iff]
    intro e he
    have hnm : e ∉ C.entityNames := by
      have := (List.mem_filter.mp he).2
      simpa using this
    rw [indexesFor_eq_nil C hv hnm]
    rfl
  rw [h2, List.append_nil]
  apply List.flatMap_congr
  intro e _
  rw [List.filter_map]
  rfl

theorem plan_eq_filter (C : Catalog) (L : LiveState) (enforce : Bool)
    (hv : ownersDeclared C = true) :
    plan C L enforce =
      (planItems C).filter (fun a => !done L a) ++
        (if enforce then planPolicies C L else []) := by
  rw [plan, planItems, List.filter_append, planEntities_eq_filter,
    planIndexes_eq_filter C L hv, List.append_assoc]

/- Keys of the item list of a validated catalog are pairwise distinct. -/

theorem planItems_keys_nodup (C : Catalog)
    (hne : C.entityNames.Nodup)
    (hni : (C.indexes.map fun i => i.name).Nodup) :
    ((planItems C).map actionKey).Nodup := by
  rw [planItems, List.map_append]
  rw [List.nodup_append]
  refine ⟨?_, ?_, ?_⟩
  · rw [List.map_map]
    exact hne.map fun a b h => by simpa [actionKey, Function.comp] using h
  · rw [List.map_flatMap]
    rw [List.nodup_flatMap]
    constructor
    · intro e _
      have h1 : (List.map actionKey
            ((indexesFor C e).map fun i => Action.create_index i.name i.entity))
          = List.map ObjKey.idxK ((indexesFor C e).map fun i => i.name) := by
        rw [List.map_map, List.map_map]
        rfl
      rw [h1]
      have hsub : ((indexesFor C e).map fun i => i.name).Sublist
          (C.indexes.map fun i => i.name) :=
        List.Sublist.map _ (List.filter_sublist C.indexes)
      exact (hsub.nodup hni).map fun a b h => by simpa using h
    · have hpw : List.Pairwise (fun a b => a ≠ b) C.entityNames := hne
      refine hpw.imp ?_
      intro e₁ e₂ hne12 k hk1 hk2
      obtain ⟨a₁, ha₁, rfl⟩ := List.mem_map.mp hk1
      obtain ⟨a₂, ha₂, hkey⟩ := List.mem_map.mp hk2
      obtain ⟨i₁, hi₁, rfl⟩ := List.mem_map.mp ha₁
      obtain ⟨i₂, hi₂, rfl⟩ := List.mem_map.mp ha₂
      have hnames : i₂.name = i₁.name := by
        simpa [actionKey] using hkey
      have hm₁ : i₁ ∈ C.indexes := (List.mem_filter.mp hi₁).1
      have hm₂ : i₂ ∈ C.indexes := (List.mem_filter.mp hi₂).1
      have hieq : i₂ = i₁ :=
        List.inj_on_of_nodup_map hni hm₂ hm₁ hnames
      have he₁ : i₁.entity = e₁ := by
        have := (List.mem_filter.mp hi₁).2
        simpa using this
      have he₂ : i₂.entity = e₂ := by
        have := (List.mem_filter.mp hi₂).2
        simpa using this
      exact hne12 (he₁ ▸ he₂ ▸ congrArg IndexDef.entity hieq.symm)
  · intro k hk1 hk2
    obtain ⟨a₁, ha₁, rfl⟩ := List.mem_map.mp hk1
    obtain ⟨e0, -, rfl⟩ := List.mem_map.mp ha₁
    rw [List.map_flatMap] at hk2
    obtain ⟨e', -, hk2'⟩ := List.mem_flatMap.mp hk2
    obtain ⟨a₂, ha₂, hkey⟩ := List.mem_map.mp hk2'
    obtain ⟨i, -, rfl⟩ := List.mem_map.mp ha₂
    simp [actionKey] at hkey

theorem knownEntities_applyPlan (C : Catalog) (L : LiveState) (q : List Action)
    (hq : ∀ x ∈ q.filterMap entTarget, x ∈ C.entityNames) :
    knownEntities C (applyPlan L q) = knownEntities C L := by
  rw [knownEntities, knownEntities, applyPlan_entities, List.filter_append]
  have h : (q.filterMap entTarget).filter
      (fun e => !decide (e ∈ C.entityNames)) = [] := by
    rw [List.filter_eq_nil_iff]
    intro x hx
    simp [hq x hx]
  rw [h, List.append_nil]

/- After fully applying a plan, every declared entity and every reachable
declared index exists in the resulting live state. -/

theorem planEntities_applyPlan_nil (C : Catalog) (L : LiveState)
    (enforce : Bool) :
    planEntities C (applyPlan L (plan C L enforce)) = [] := by
  rw [planEntities]
  have h : (C.entityNames.filter fun e =>
      !decide (e ∈ (applyPlan L (plan C L enforce)).entities)) = [] := by
    rw [List.filter_eq_nil_iff]
    intro e he
    rw [applyPlan_entities]
    by_cases hL : e ∈ L.entities
    · simp [List.mem_append, hL]
    · have hmem : Action.create_entity e ∈ plan C L enforce := by
        rw [plan]
        exact List.mem_append.mpr
          (Or.inl (List.mem_append.mpr (Or.inl (mem_planEntities C L he hL))))
      have hx : e ∈ (plan C L enforce).filterMap entTarget :=
        List.mem_filterMap.mpr ⟨Action.create_entity e, hmem, rfl⟩
      simp [List.mem_append, hx]
  rw [h]
  rfl

theorem planIndexes_applyPlan_nil (C : Catalog) (L : LiveState)
    (enforce : Bool) :
    planIndexes C (applyPlan L (plan C L enforce)) = [] := by
  rw [planIndexes, List.flatMap_eq_nil_iff]
  intro e he
  have heL : e ∈ knownEntities C L := by
    rw [knownEntities_applyPlan C L _
      (fun x hx => plan_entTargets_mem C L enforce hx)] at he
    exact he
  rw [List.map_eq_nil_iff, List.filter_eq_nil_iff]
  intro i hi
  rw [applyPlan_indexes]
  by_cases hL : i.name ∈ L.indexes
  · simp [List.mem_append, hL]
  · have hmem : Action.create_index i.name i.entity ∈ plan C L enforce := by
      rw [plan]
      exact List.mem_append.mpr
        (Or.inl (List.mem_append.mpr (Or.inr (mem_planIndexes C L heL hi hL))))
    have hx : i.name ∈ (plan C L enforce).filterMap idxTarget :=
      List.mem_filterMap.mpr ⟨Action.create_index i.name i.entity, hmem, rfl⟩
    simp [List.mem_append, hx]

/-- Claim C1 (counterexample): reconciliation is not idempotent as stated.
With policy enforcement requested, a catalog with one entity and one access
policy, applied in full against the empty live state, still yields a
non-empty second plan: the unconditional enable_policy_enforcement action is
emitted again because the live state does not record enforcement. -/
theorem plan_reapply_counterexample :
    plan onePolicyCatalog
        (applyPlan emptyLive (plan onePolicyCatalog emptyLive true)) true ≠
      [] := by
  decide

/-- Claim C1 (amended): applying plan(C, L) in full and re-planning yields the
empty plan whenever policy enforcement is not requested; with enforcement
requested, the recomputed plan consists exclusively of
enable_policy_enforcement actions (each an idempotent no-op on the live
state) — no create_entity, create_index or create_policy action is ever
emitted twice. -/
theorem plan_reapply_idempotent :
    ∀ (C : Catalog) (L : LiveState),
      plan C (applyPlan L (plan C L false)) false = [] ∧
      ((plan C (applyPlan L (plan C L true)) true).all isEnable) = true := by
  intro C L
  constructor
  · rw [plan, planEntities_applyPlan_nil C L false,
      planIndexes_applyPlan_nil C L false]
    simp
  · rw [plan, planEntities_applyPlan_nil C L true,
      planIndexes_applyPlan_nil C L true]
    simp only [List.nil_append, List.append_nil, if_true]
    rw [List.all_eq_true]
    intro a ha
    rw [planPolicies] at ha
    obtain ⟨e, he, ha'⟩ := List.mem_flatMap.mp ha
    split at ha'
    · exact absurd ha' (List.not_mem_nil a)
    · rcases List.mem_cons.mp ha' with rfl | hmem
      · rfl
      · obtain ⟨p, hp, rfl⟩ := List.mem_map.mp hmem
        have hp' := List.mem_filter.mp hp
        exfalso
        have hpol : (p.entity, p.operation) ∈
            (applyPlan L (plan C L true)).policies := by
          rw [applyPlan_policies]
          by_cases hL : (p.entity, p.operation) ∈ L.policies
          · exact List.mem_append.mpr (Or.inl hL)
          · have hmemp : Action.create_policy p.entity p.operation ∈
                plan C L true := by
              rw [plan]
              refine List.mem_append.mpr (Or.inr ?_)
              simp only [if_true]
              exact mem_planPolicies C L he hp'.1 hL
            exact List.mem_append.mpr
              (Or.inr (List.mem_filterMap.mpr ⟨_, hmemp, rfl⟩))
        have hkept := hp'.2
        simp [hpol] at hkept

/-- Claim C2 (counterexample): resumability fails as stated when policy
enforcement is requested.  For a catalog with two access policies on an
existing entity, after applying the first two of three planned actions
(enable_policy_enforcement and one create_policy), re-planning does not yield
the one remaining action: the unconditional enable_policy_enforcement action
is emitted again. -/
theorem plan_resume_counterexample :
    plan twoPolicyCatalog
        (applyPlan usersLive ((plan twoPolicyCatalog usersLive true).take 2))
        true ≠
      (plan twoPolicyCatalog usersLive true).drop 2 := by
  decide

/-- Claim C2 (amended): for a validated catalog (unique entity names, unique
index names, index owners declared) and with policy enforcement not
requested, after any prefix of plan(C, L) has been applied, re-invoking plan
against the updated live state yields exactly the remaining, unapplied
actions in order. -/
theorem plan_resumable_after_prefix (C : Catalog) (L : LiveState) (n : Nat)
    (hv : ownersDeclared C = true) (hne : C.entityNames.Nodup)
    (hni : (C.indexes.map fun i => i.name).Nodup) :
    plan C (applyPlan L ((plan C L false).take n)) false =
      (plan C L false).drop n := by
  have hPeq : plan C L false = (planItems C).filter (fun a => !done L a) := by
    rw [plan_eq_filter C L false hv]
    simp
  have hItemsNotEnable : ∀ a ∈ planItems C, isEnable a = false := by
    intro a ha
    rw [planItems] at ha
    rcases List.mem_append.mp ha with h | h
    · obtain ⟨e, -, rfl⟩ := List.mem_map.mp h
      rfl
    · obtain ⟨e, -, h'⟩ := List.mem_flatMap.mp h
      obtain ⟨i, -, rfl⟩ := List.mem_map.mp h'
      rfl
  have hLpp : plan C (applyPlan L ((plan C L false).take n)) false =
      (planItems C).filter
        (fun a => !done (applyPlan L ((plan C L false).take n)) a) := by
    rw [plan_eq_filter _ _ _ hv]
    simp
  rw [hLpp]
  have hcong : ∀ a ∈ planItems C,
      (!done (applyPlan L ((plan C L false).take n)) a)
        = ((!done L a) && !decide (actionKey a ∈
            (((planItems C).filter (fun a => !done L a)).take n).map
              actionKey)) := by
    intro a ha
    rw [done_applyPlan _ _ _ (hItemsNotEnable a ha), Bool.not_or, hPeq]
  rw [List.filter_congr hcong, hPeq]
  have hnd : (((planItems C).filter (fun a => !done L a)).map actionKey).Nodup :=
    List.Nodup.sublist
      (List.Sublist.map actionKey (List.filter_sublist (planItems C)))
      (planItems_keys_nodup C hne hni)
  exact filter_pending_take_drop actionKey (fun a => !done L a)
    (planItems C) n hnd

theorem flatMap_sublist {α β : Type} (l : List α) (f g : α → List β)
    (h : ∀ x ∈ l, (f x).Sublist (g x)) :
    (l.flatMap f).Sublist (l.flatMap g) := by
  induction l with
  | nil => simp
  | cons x xs ih =>
      rw [List.flatMap_cons, List.flatMap_cons]
      exact List.Sublist.append (h x (List.mem_cons_self x xs))
        (ih fun y hy => h y (List.mem_cons_of_mem x hy))

theorem flatMap_once {γ : Type} (e : String) (g : String → List γ)
    (t : List γ) (he : (g e).Sublist t) (ho : ∀ k, k ≠ e → g k = []) :
    ∀ ks : List String, ks.Nodup → (ks.flatMap g).Sublist t := by
  intro ks
  induction ks with
  | nil => intro _; simp
  | cons k ks ih =>
      intro hnd
      rw [List.flatMap_cons]
      rcases List.nodup_cons.mp hnd with ⟨hkn, hnd'⟩
      by_cases hk : k = e
      · subst hk
        have hrest : ks.flatMap g = [] := by
          rw [List.flatMap_eq_nil_iff]
          intro x hx
          exact ho x fun hxe => hkn (hxe ▸ hx)
        rw [hrest, List.append_nil]
        exact he
      · rw [ho k hk, List.nil_append]
        exact ih hnd'

theorem filterMap_all_some {α β : Type} (f : α → Option β) (g : α → β)
    (l : List α) (h : ∀ a ∈ l, f a = some (g a)) :
    l.filterMap f = l.map g := by
  induction l with
  | nil => rfl
  | cons x xs ih =>
      rw [List.filterMap_cons_some (h x (List.mem_cons_self x xs)),
        List.map_cons, ih fun a ha => h a (List.mem_cons_of_mem x ha)]

/-- Claim C3: ordering guarantee — in every plan, all create_entity actions
precede all create_index actions, which precede all policy actions (ranks are
sorted); within each category declaration order is preserved (the entity
targets form a sublist of the declared entity order, the index targets owned
by any entity form a sublist of that entity's declared index order, and the
policy targets form a sublist of the declared per-entity policy order); and
every create_index action's target entity either appears as a create_entity
action of the same plan (which, by the rank ordering, is earlier) or already
exists in the live state. -/
theorem plan_ordering (C : Catalog) (L : LiveState) (enforce : Bool)
    (hv : ownersDeclared C = true) (hne : C.entityNames.Nodup) :
    (plan C L enforce).Pairwise (fun a b => rank a ≤ rank b) ∧
    ((plan C L enforce).filterMap entTarget).Sublist C.entityNames ∧
    (∀ e : String,
        ((plan C L enforce).filterMap (idxTargetFor e)).Sublist
          ((indexesFor C e).map fun i => i.name)) ∧
    ((plan C L enforce).filterMap polTarget).Sublist
      (C.entityNames.flatMap fun e =>
        (policiesFor C e).map fun p => (p.entity, p.operation)) ∧
    (∀ nm ent : String, Action.create_index nm ent ∈ plan C L enforce →
        Action.create_entity ent ∈ plan C L enforce ∨ ent ∈ L.entities) := by
  have hrank0 : ∀ a ∈ planEntities C L, rank a = 0 := by
    intro a ha
    obtain ⟨e, -, rfl⟩ := List.mem_map.mp ha
    rfl
  have hrank1 : ∀ a ∈ planIndexes C L, rank a = 1 := by
    intro a ha
    rw [planIndexes] at ha
    obtain ⟨e, -, ha'⟩ := List.mem_flatMap.mp ha
    obtain ⟨i, -, rfl⟩ := List.mem_map.mp ha'
    rfl
  have hrank2 : ∀ a ∈ (if enforce then planPolicies C L else []), rank a = 2 := by
    intro a ha
    cases enforce
    · simp at ha
    · simp only [if_true] at ha
      rw [planPolicies] at ha
      obtain ⟨e, -, ha'⟩ := List.mem_flatMap.mp ha
      split at ha'
      · exact absurd ha' (List.not_mem_nil a)
      · rcases List.mem_cons.mp ha' with rfl | hmem
        · rfl
        · obtain ⟨p, -, rfl⟩ := List.mem_map.mp hmem
          rfl
  refine ⟨?_, ?_, ?_, ?_, ?_⟩
  · rw [plan]
    refine List.pairwise_append.mpr
      ⟨List.pairwise_append.mpr
        ⟨List.pairwise_of_forall_mem_list fun a ha b hb => by
            rw [hrank0 a ha, hrank0 b hb],
         List.pairwise_of_forall_mem_list fun a ha b hb => by
            rw [hrank1 a ha, hrank1 b hb],
         fun a ha b hb => by rw [hrank0 a ha, hrank1 b hb]; omega⟩,
       List.pairwise_of_forall_mem_list fun a ha b hb => by
          rw [hrank2 a ha, hrank2 b hb],
       fun a ha b hb => ?_⟩
    rw [hrank2 b hb]
    rcases List.mem_append.mp ha with h | h
    · rw [hrank0 a h]; omega
    · rw [hrank1 a h]; omega
  · rw [plan_filterMap_entTarget]
    exact List.filter_sublist C.entityNames
  · intro e
    rw [plan, List.filterMap_append, List.filterMap_append]
    have h1 : (planEntities C L).filterMap (idxTargetFor e) = [] := by
      rw [List.filterMap_eq_nil_iff]
      intro a ha
      obtain ⟨x, -, rfl⟩ := List.mem_map.mp ha
      rfl
    have h3 : List.filterMap (idxTargetFor e)
        ((if enforce then planPolicies C L else []) : List Action) = [] := by
      rw [List.filterMap_eq_nil_iff]
      intro a ha
      have h2 := hrank2 a ha
      cases a <;> simp [rank] at h2 <;> rfl
    have h2 : ((planIndexes C L).filterMap (idxTargetFor e)).Sublist
        ((indexesFor C e).map fun i => i.name) := by
      rw [planIndexes, List.filterMap_flatMap, knownEntities,
        List.flatMap_append]
      have hlive : ((L.entities.filter fun x => !decide (x ∈ C.entityNames))
          |>.flatMap fun k => List.filterMap (idxTargetFor e)
            (((indexesFor C k).filter fun i =>
                !decide (i.name ∈ L.indexes)).map
              fun i => Action.create_index i.name i.entity)) = [] := by
        rw [List.flatMap_eq_nil_iff]
        intro k hk
        have hkn : k ∉ C.entityNames := by
          have := (List.mem_filter.mp hk).2
          simpa using this
        rw [indexesFor_eq_nil C hv hkn]
        rfl
      rw [hlive, List.append_nil]
      refine flatMap_once e _ _ ?_ ?_ C.entityNames hne
      · have hsome : ∀ i ∈ (indexesFor C e).filter
            (fun i => !decide (i.name ∈ L.indexes)),
            idxTargetFor e (Action.create_index i.name i.entity) =
              some i.name := by
          intro i hi
          have : i.entity = e := by
            have := (List.mem_filter.mp (List.mem_filter.mp hi).1).2
            simpa using this
          simp [idxTargetFor, this]
        rw [List.filterMap_map]
        rw [filterMap_all_some _ (fun i => i.name) _ hsome]
        exact List.Sublist.map _ (List.filter_sublist _)
      · intro k hk
        rw [List.filterMap_map, List.filterMap_eq_nil_iff]
        intro i hi
        have : i.entity = k := by
          have := (List.mem_filter.mp (List.mem_filter.mp hi).1).2
          simpa using this
        simp [idxTargetFor, this, hk]
    rw [h1, h3, List.nil_append, List.append_nil]
    exact h2
  · rw [plan, List.filterMap_append, List.filterMap_append]
    have h1 : (planEntities C L).filterMap polTarget = [] := by
      rw [List.filterMap_eq_nil_iff]
      intro a ha
      obtain ⟨x, -, rfl⟩ := List.mem_map.mp ha
      rfl
    have h2 : (planIndexes C L).filterMap polTarget = [] := by
      rw [List.filterMap_eq_nil_iff]
      intro a ha
      rw [planIndexes] at ha
      obtain ⟨x, -, ha'⟩ := List.mem_flatMap.mp ha
      obtain ⟨i, -, rfl⟩ := List.mem_map.mp ha'
      rfl
    rw [h1, h2, List.nil_append, List.nil_append]
    cases enforce
    · simp
    · simp only [if_true]
      rw [planPolicies, List.filterMap_flatMap]
      refine flatMap_sublist _ _ _ ?_
      intro e _
      by_cases hemp : (policiesFor C e).isEmpty = true
      · rw [if_pos hemp]
        simp
      · rw [if_neg hemp]
        rw [List.filterMap_cons_none rfl, List.filterMap_map]
        have hfm : List.filterMap
            (polTarget ∘ fun p => Action.create_policy p.entity p.operation)
            (List.filter
              (fun p => !decide ((p.entity, p.operation) ∈ L.policies))
              (policiesFor C e))
            = List.map (fun p => (p.entity, p.operation))
                (List.filter
                  (fun p => !decide ((p.entity, p.operation) ∈ L.policies))
                  (policiesFor C e)) :=
          filterMap_all_some _ _ _ fun p _ => rfl
        rw [hfm]
        exact List.Sublist.map _ (List.filter_sublist _)
  · intro nm ent hmem
    rw [plan] at hmem
    rcases List.mem_append.mp hmem with h | h
    · rcases List.mem_append.mp h with h1 | h2
      · obtain ⟨e, -, heq⟩ := List.mem_map.mp h1
        exact absurd heq (by simp)
      · rw [planIndexes] at h2
        obtain ⟨e, he, h'⟩ := List.mem_flatMap.mp h2
        obtain ⟨i, hi, heq⟩ := List.mem_map.mp h'
        have hient : i.entity = ent := by
          have := congrArg (fun a => match a with
            | Action.create_index _ x => x
            | _ => "") heq
          simpa using this
        have hie : i.entity = e := by
          have := (List.mem_filter.mp (List.mem_filter.mp hi).1).2
          simpa using this
        rcases List.mem_append.mp he with hdecl | hlive
        · by_cases hL : ent ∈ L.entities
          · exact Or.inr hL
          · refine Or.inl ?_
            rw [plan]
            refine List.mem_append.mpr (Or.inl (List.mem_append.mpr
              (Or.inl (mem_planEntities C L ?_ hL))))
            rw [← hient, hie]
            exact hdecl
        · refine Or.inr ?_
          have := (List.mem_filter.mp hlive).1
          rw [← hient, hie]
          exact this
    · have h2 := hrank2 _ h
      simp [rank] at h2

/-- Claim C3 (witness): the ordering guarantee at a concrete input — the full
source catalog with enforcement requested against a live state that already
has two tables, one index and one policy. -/
theorem plan_ordering_witness :
    (plan realCatalog liveA true).Pairwise (fun a b => rank a ≤ rank b) ∧
    ((plan realCatalog liveA true).filterMap entTarget).Sublist
      realCatalog.entityNames ∧
    (∀ e : String,
        ((plan realCatalog liveA true).filterMap (idxTargetFor e)).Sublist
          ((indexesFor realCatalog e).map fun i => i.name)) ∧
    ((plan realCatalog liveA true).filterMap polTarget).Sublist
      (realCatalog.entityNames.flatMap fun e =>
        (policiesFor realCatalog e).map fun p => (p.entity, p.operation)) ∧
    (∀ nm ent : String,
        Action.create_index nm ent ∈ plan realCatalog liveA true →
        Action.create_entity ent ∈ plan realCatalog liveA true ∨
          ent ∈ liveA.entities) :=
  plan_ordering realCatalog liveA true (by decide) (by decide)

/-- Claim C4: determinism of planning — the plan depends only on the catalogs
and on the live state as a mathematical object: for a validated catalog, two
introspection snapshots that enumerate the same sets of entities, indexes and
policies (in any order) produce identical ordered action sequences; in
particular two runs on identical inputs coincide. -/
theorem plan_deterministic (C : Catalog) (L₁ L₂ : LiveState) (enforce : Bool)
    (hv : ownersDeclared C = true)
    (h1 : L₁.entities.Perm L₂.entities)
    (h2 : L₁.indexes.Perm L₂.indexes)
    (h3 : L₁.policies.Perm L₂.policies) :
    plan C L₁ enforce = plan C L₂ enforce := by
  have hdone : ∀ a : Action, done L₁ a = done L₂ a := by
    intro a
    cases a with
    | create_entity n =>
        exact show decide (n ∈ L₁.entities) = decide (n ∈ L₂.entities) from
          decide_eq_decide.mpr h1.mem_iff
    | create_index n ent =>
        exact show decide (n ∈ L₁.indexes) = decide (n ∈ L₂.indexes) from
          decide_eq_decide.mpr h2.mem_iff
    | enable_policy_enforcement e => rfl
    | create_policy e op =>
        exact show decide ((e, op) ∈ L₁.policies) =
            decide ((e, op) ∈ L₂.policies) from
          decide_eq_decide.mpr h3.mem_iff
  rw [plan_eq_filter C L₁ enforce hv, plan_eq_filter C L₂ enforce hv]
  congr 1
  · exact List.filter_congr fun a _ => by rw [hdone a]
  · cases enforce
    · rfl
    · simp only [if_true]
      rw [planPolicies, planPolicies]
      apply List.flatMap_congr
      intro e _
      by_cases hemp : (policiesFor C e).isEmpty = true
      · rw [if_pos hemp, if_pos hemp]
      · rw [if_neg hemp, if_neg hemp]
        congr 1
        refine congrArg _ (List.filter_congr fun p _ => ?_)
        exact congrArg (fun b => !b) (decide_eq_decide.mpr h3.mem_iff)

/-- Claim C4 (witness): determinism at a concrete input — the full source
catalog against two enumerations of the same live sets. -/
theorem plan_deterministic_witness :
    plan realCatalog liveA true = plan realCatalog liveB true :=
  plan_deterministic realCatalog liveA liveB true (by decide) (by decide)
    (by decide) (by decide)

/-- Claim C2 (witness): resumability at a concrete input — the full source
catalog, a live state that already has the users table and one index, and a
prefix of three applied actions. -/
theorem plan_resumable_witness :
    plan realCatalog
        (applyPlan partialLive ((plan realCatalog partialLive false).take 3))
        false =
      (plan realCatalog partialLive false).drop 3 :=
  plan_resumable_after_prefix realCatalog partialLive 3 (by decide) (by decide)
    (by decide)

/-- Claim C6: expression-index validation at load time — any expression index
that references a column not declared on its owning entity, or that decodes
more than one path, makes index validation fail with
InvalidIndexExpressionError; conversely the loaded source catalog validates,
every expression index in it targets exactly one decoded path, and every
index supporting whole-document containment on a json column (a whole-column
index with no decoded path on a json column) is plain/generalized-inverted,
never an expression index. -/
theorem expression_index_validation :
    (∀ (es : List EntityDef) (idxs : List IndexDef) (i : IndexDef),
        i ∈ idxs → i.kind = IndexKind.expression →
        (¬ (i.columns.all fun c => columnDeclared es i.entity c) = true ∨
            1 < i.decodedPaths.length) →
        validateIndexes es idxs = .error .InvalidIndexExpressionError) ∧
    validateIndexes realEntities realIndexes = .ok () ∧
    (realIndexes.all fun i =>
        !decide (i.kind = IndexKind.expression) ||
          decide (i.decodedPaths.length = 1)) = true ∧
    (realIndexes.all fun i =>
        !(i.decodedPaths.isEmpty &&
            i.columns.all fun c => columnHasType realEntities i.entity c .json)
          || decide (i.kind = IndexKind.plain)) = true := by
  refine ⟨?_, rfl, by decide, by decide⟩
  intro es idxs i hi hkind hbad
  have hcond : (idxs.any fun j =>
      decide (j.kind = IndexKind.expression) && !indexExpressionOk es j) =
      true := by
    rw [List.any_eq_true]
    refine ⟨i, hi, ?_⟩
    rcases hbad with hcol | hlen
    · rw [Bool.not_eq_true] at hcol
      simp [hkind, indexExpressionOk, hcol]
    · have hne1 : ¬ i.decodedPaths.length = 1 := by omega
      simp [hkind, indexExpressionOk, hne1]
  rw [validateIndexes, if_pos hcond]

/-- Claim C6 (witness): a concrete invalid expression index (decoding the two
paths price and bedrooms at once) is rejected with
InvalidIndexExpressionError, while the source catalog itself validates. -/
theorem expression_index_validation_witness :
    validateIndexes realEntities [twoPathIndex] =
      .error .InvalidIndexExpressionError ∧
    validateIndexes realEntities realIndexes = .ok () :=
  ⟨expression_index_validation.1 realEntities [twoPathIndex] twoPathIndex
      (by decide) rfl (Or.inr (by decide)),
    expression_index_validation.2.1⟩

/-- Claim C7: policy-conflict rejection — whenever the same entity declares
both an all-operation policy and an operation-specific policy, policy
validation fails with PolicyConflictError, catalog loading fails with
PolicyConflictError as soon as index validation passes, and no plan is ever
produced from such a catalog. -/
theorem policy_conflict_rejected (C : Catalog)
    (h : ∃ p q : PolicyDef, p ∈ C.policies ∧ q ∈ C.policies ∧
        p.entity = q.entity ∧ p.operation = Op.all ∧ q.operation ≠ Op.all) :
    validatePolicies C.policies = .error .PolicyConflictError ∧
    (validateIndexes C.entities C.indexes = .ok () →
        loadCatalog C = .error .PolicyConflictError) ∧
    (∀ (L : LiveState) (enforce : Bool) (acts : List Action),
        planFromLoad C L enforce ≠ .ok acts) := by
  obtain ⟨p, q, hp, hq, hpe, hpa, hqa⟩ := h
  have hconf : policyConflict C.policies = true := by
    rw [policyConflict, List.any_eq_true]
    refine ⟨p, hp, ?_⟩
    have hinner : (C.policies.any fun r =>
        decide (r.entity = p.entity) && !decide (r.operation = Op.all)) =
        true := by
      rw [List.any_eq_true]
      exact ⟨q, hq, by simp [hpe.symm, hqa]⟩
    simp [hpa, hinner]
  have h₁ : validatePolicies C.policies = .error .PolicyConflictError := by
    rw [validatePolicies, if_pos hconf]
  refine ⟨h₁, ?_, ?_⟩
  · intro hok
    simp only [loadCatalog, hok, h₁]
  · intro L enforce acts hcontra
    simp only [planFromLoad] at hcontra
    cases hload : loadCatalog C with
    | error e => rw [hload] at hcontra; exact Except.noConfusion hcontra
    | ok C' =>
        simp only [loadCatalog] at hload
        cases hvi : validateIndexes C.entities C.indexes with
        | error e2 => rw [hvi] at hload; exact Except.noConfusion hload
        | ok u =>
            rw [hvi, h₁] at hload
            exact Except.noConfusion hload

/-- Claim C7 (witness): Scenario D of the spec — one entity declaring an
all-operation and a read policy is rejected at load time with
PolicyConflictError, and no plan is ever produced from it. -/
theorem policy_conflict_witness :
    validatePolicies scenarioDCatalog.policies = .error .PolicyConflictError ∧
    loadCatalog scenarioDCatalog = .error .PolicyConflictError ∧
    (∀ (L : LiveState) (enforce : Bool) (acts : List Action),
        planFromLoad scenarioDCatalog L enforce ≠ .ok acts) := by
  have h := policy_conflict_rejected scenarioDCatalog
    ⟨⟨"users", .all⟩, ⟨"users", .read⟩, by decide, by decide, rfl, rfl,
      by decide⟩
  exact ⟨h.1, h.2.1 (by rfl), h.2.2⟩

/-- Claim C8: backend failures are never conflated with emptiness — for every
failed introspection outcome (timeout or backend error), reconciliation
returns exactly that typed error and produces no plan for any catalog; a
successful introspection yields the pure plan, so a failure is always
distinguishable from an empty live state. -/
theorem introspection_failure_propagates :
    ∀ (C : Catalog) (enforce : Bool) (err : IntrospectionFailure),
      reconcile C enforce (.error err) = .error err ∧
      (∀ acts : List Action, reconcile C enforce (.error err) ≠ .ok acts) ∧
      (∀ L : LiveState, reconcile C enforce (.ok L) = .ok (plan C L enforce)) :=
  fun C enforce err =>
    ⟨rfl, fun acts h => Except.noConfusion h, fun L => rfl⟩

/-- Claim C9: for every backend state and every input pair (sql_statement,
description), execute_sql_statement returns success with the message
`description + " ready to execute"` and leaves the backend untouched (its
error branch is unreachable and it performs no execution); consequently the
Create All Tables & Indexes flow reports success for every table, index, and
policy statement it processes, regardless of statement content. -/
theorem execute_sql_statement_always_succeeds :
    (∀ (b : Backend) (sql desc : String),
        execute_sql_statement b sql desc =
          ({ success := true, message := desc ++ " ready to execute" }, b)) ∧
    (∀ (b : Backend) (enableRLS : Bool),
        ((create_all_tables_and_indexes b enableRLS).1.all (fun r => r.2)) =
          true) := by
  constructor
  · intro b sql desc
    rfl
  · intro b enableRLS
    have key : ∀ (stmts : List (String × String)) (acc : List (String × Bool))
        (b' : Backend), acc.all (fun r => r.2) = true →
        ((stmts.foldl
            (fun acc stmt =>
              let r := execute_sql_statement acc.2 stmt.2 stmt.1
              (acc.1 ++ [(stmt.1, r.1.success)], r.2))
            (acc, b')).1.all (fun r => r.2)) = true := by
      intro stmts
      induction stmts with
      | nil => intro acc b' h; simpa using h
      | cons s rest ih =>
          intro acc b' h
          simp only [List.foldl_cons]
          exact ih _ _ (by simp [execute_sql_statement, h])
    exact key _ [] b rfl

/-- Claim C5: planning-side effects — the schema-creation flow of src/App.py
never executes SQL against the backend: execute_sql_statement returns its
backend state unchanged, and therefore the whole Create All Tables & Indexes
handler (with or without the RLS option) leaves the backend state exactly as
it found it; producing the plan/output is a pure computation. -/
theorem schema_flow_leaves_backend_unchanged :
    (∀ (b : Backend) (sql desc : String),
        (execute_sql_statement b sql desc).2 = b) ∧
    (∀ (b : Backend) (enableRLS : Bool),
        (create_all_tables_and_indexes b enableRLS).2 = b) := by
  constructor
  · intro b sql desc
    rfl
  · intro b enableRLS
    have key : ∀ (stmts : List (String × String)) (acc : List (String × Bool))
        (b' : Backend),
        ((stmts.foldl
            (fun acc stmt =>
              let r := execute_sql_statement acc.2 stmt.2 stmt.1
              (acc.1 ++ [(stmt.1, r.1.success)], r.2))
            (acc, b')).2) = b' := by
      intro stmts
      induction stmts with
      | nil => intro acc b'; rfl
      | cons s rest ih =>
          intro acc b'
          simp only [List.foldl_cons]
          exact ih _ b'
    exact key _ [] b

/-- Claim C10: the three key-name filters of the Show Complete SQL export
(basic: none of gin/price/bedrooms/property_type occurs in the key; gin: gin
occurs; expression: one of price/bedrooms/property_type occurs) partition the
20 keys of INDEX_SCHEMAS: every key appears exactly once in the exported
sequence of index statements.  (The key idx_user_sessions_last_login is
emitted in the GIN section, since the substring gin occurs inside last_login;
it still appears exactly once.) -/
theorem show_complete_sql_partitions_index_keys :
    INDEX_SCHEMAS_keys.length = 20 ∧
    basic_indexes.length = 9 ∧
    gin_indexes.length = 8 ∧
    expression_indexes.length = 3 ∧
    (INDEX_SCHEMAS_keys.all
      (fun k => decide (exportedIndexKeys.count k = 1))) = true := by
  refine ⟨rfl, by decide, by decide, by decide, by decide⟩

end App
